import Mathlib

/-!
Verification development for the IPAM core of the `kvaps/core` repository.

The repository's sources under verification are split in two parts:

* the legacy RDBMS-backed IPAM store (`ipamStore.addEndpoint`,
  `getEffectiveNetworkID` and friends) is present in the sources and is
  embedded directly, in the `Legacy` namespace;
* the modern IPAM client aggregate (`NewIPAM`, `AllocateIP`,
  `DeallocateIP`, `BlackOut`, `UnBlackOut`, `AddHost`, `UpdateTopology`
  and the per-leaf block pool) is exercised by its test file, but the
  implementation file itself is not among the sources.  Those components
  are modelled from the specification (sections 3, 4.1, 4.3, 4.4, 4.5),
  in the `Ipam` namespace; each such definition carries a doc comment
  naming the missing code it stands for.  The model is calibrated
  against the repository's own tests wherever the tests pin behaviour
  down (concrete scenarios S1-S6 of the specification).

Addresses are 32-bit IPv4 addresses represented as natural numbers;
an IP string such as "10.0.0.2" is represented by its integer value.
-/

deriving instance DecidableEq for Except

namespace Ipam

/-- Numeric value of the dotted-quad IPv4 address `a.b.c.d`. -/
def ip4 (a b c d : Nat) : Nat := ((a * 256 + b) * 256 + c) * 256 + d

/-- Modelled from the spec: a CIDR, "a contiguous IPv4 range represented as
`(startInt, endInt, prefixLen)`" (section 3); we keep the start address
`base` and the prefix length `plen`, the end being determined by them. -/
structure CIDR where
  base : Nat
  plen : Nat
deriving DecidableEq

/-- Number of addresses in the CIDR: `2 ^ (32 - prefixLen)`. -/
def CIDR.size (c : CIDR) : Nat := 2 ^ (32 - c.plen)

/-- One past the last address of the CIDR. -/
def CIDR.endEx (c : CIDR) : Nat := c.base + c.size

/-- Modelled from the spec: address containment test of the CIDR algebra
(section 4.1, `IPToOffset` domain). -/
def CIDR.containsAddrB (c : CIDR) (a : Nat) : Bool :=
  decide (c.base ≤ a ∧ a < c.endEx)

/-- Modelled from the spec: CIDR-in-CIDR containment test of the CIDR
algebra (section 4.1, `Contains(other)`). -/
def CIDR.containsC (c d : CIDR) : Bool :=
  decide (c.base ≤ d.base ∧ d.endEx ≤ c.endEx)

/-- Does some CIDR of the list cover address `a`. -/
def coveredB (a : Nat) (bl : List CIDR) : Bool :=
  bl.any (fun c => c.containsAddrB a)

/-- Modelled from the spec: a block of the per-leaf block pool, "(cidr,
owner host name, tenant, segment, allocation bitmap, revision)"
(section 3).  The bitmap is kept as the list of allocated offsets; the
owner host and the revision play no role in the verified claims and are
dropped (the model is scoped to a single host's leaf). -/
structure Block where
  cidr : CIDR
  tenant : String
  segment : String
  allocated : List Nat
deriving DecidableEq

/-- Modelled from the spec: an endpoint record mapping an owner token to
its allocated IP (section 3; the block reference is recoverable from the
IP within a single leaf). -/
structure EndpointR where
  token : String
  ip : Nat
deriving DecidableEq

/-- Modelled from the spec: the state of one network whose single leaf
group owns the whole network CIDR -- the shape used by every concrete
scenario of the claims.  Carries the base CIDR, the `blockMask`, the
leaf's ordered block list, the network's blackout set and the owner
token index (sections 3, 4.4, 4.5). -/
structure Network where
  cidr : CIDR
  blockMask : Nat
  blocks : List Block
  blackouts : List CIDR
  endpoints : List EndpointR
deriving DecidableEq

/-- Is offset `o` of block `b` free: its bit is not set and the address
is not covered by a blackout (the spec pre-masks blacked-out addresses
to "allocated", section 4.4; the model equivalently skips them). -/
def freeB (b : Block) (bl : List CIDR) (o : Nat) : Bool :=
  !(b.allocated.contains o) && !(coveredB (b.cidr.base + o) bl)

/-- Scan `fuel` offsets upward from `o` for the first free one. -/
def lowestFreeFrom (b : Block) (bl : List CIDR) : Nat → Nat → Option Nat
  | _, 0 => none
  | o, fuel + 1 => if freeB b bl o then some o else lowestFreeFrom b bl (o + 1) fuel

/-- Modelled from the spec: "Within a block, the lowest-index free bit is
allocated" (section 4.4). -/
def lowestFree (b : Block) (bl : List CIDR) : Option Nat :=
  lowestFreeFrom b bl 0 b.cidr.size

/-- Does the block have at least one free bit. -/
def hasFreeB (b : Block) (bl : List CIDR) : Bool :=
  (lowestFree b bl).isSome

/-- Index (counting from `i`) of the first element satisfying `p`. -/
def firstIdx {α : Type} (p : α → Bool) : List α → Nat → Option Nat
  | [], _ => none
  | x :: xs, i => if p x then some i else firstIdx p xs (i + 1)

/-- Modelled from the spec: block-selection step 1, first half -- "the
first block with tenant == req.tenant and segment == req.segment and at
least one free bit is the candidate" (section 4.4). -/
def matchIdx (n : Network) (t s : String) : Option Nat :=
  firstIdx (fun b => b.tenant == t && b.segment == s && hasFreeB b n.blackouts) n.blocks 0

/-- Modelled from the spec: block-selection step 1, second half -- "scan
again for blocks in the reusable state (all-zero bitmap)"; the first one
found becomes the candidate (section 4.4). -/
def reuseIdx (n : Network) : Option Nat :=
  firstIdx (fun b => b.allocated.isEmpty) n.blocks 0

/-- Modelled from the spec: block-selection step 2 -- "carve the next
unused sub-CIDR of size blockMask from the leaf's CIDR, in ascending
order" (section 4.4); returns the base address of that sub-CIDR. -/
def carveBase (n : Network) : Option Nat :=
  let bs := 2 ^ (32 - n.blockMask)
  let cnt := 2 ^ (n.blockMask - n.cidr.plen)
  ((List.range cnt).find? fun j =>
    !(n.blocks.any (fun b => b.cidr.base == n.cidr.base + j * bs))).map
    (fun j => n.cidr.base + j * bs)

/-- Modelled from the spec: the error taxonomy of section 7 (`Exhausted`,
`Conflict`, `NotFound`, `Internal`). -/
inductive AErr where
  | exhausted
  | conflictE
  | notFoundE
  | internalE
deriving DecidableEq

/-- Modelled from the spec: "The literal message `no available IP` is
stable and used by clients for retry decisions" (section 6); the
constant `msgNoAvailableIP` of the missing client source. -/
def msgNoAvailableIP : String := "no available IP"

/-- Wire message of each error kind (section 6). -/
def AErr.message : AErr → String
  | .exhausted => msgNoAvailableIP
  | .conflictE => "conflict"
  | .notFoundE => "not found"
  | .internalE => "internal error"

/-- Allocate the lowest free bit of block `i`, tagging the block with the
request's `(tenant, segment)` (on the matching path the tags already
equal the request's, so the assignment is the identity there), and
record the endpoint (section 4.4 and section 4.5 step 5). -/
def allocAt (n : Network) (token : String) (i : Nat) (t s : String) :
    Except AErr (Nat × Network) :=
  match n.blocks[i]? with
  | none => .error .internalE
  | some b =>
    match lowestFree b n.blackouts with
    | none => .error .exhausted
    | some o =>
      .ok (b.cidr.base + o,
        { n with
          blocks := n.blocks.set i
            { cidr := b.cidr, tenant := t, segment := s, allocated := o :: b.allocated }
          endpoints := n.endpoints ++ [⟨token, b.cidr.base + o⟩] })

/-- Modelled from the spec: `AllocateIP` (section 4.5) restricted to the
network/leaf selected for the request -- (1) idempotent return for a
known token, then the block pool policy of section 4.4: matching block
first, then first reusable block (re-tagged), then carve, else fail
with `noAvailableIP`. -/
def allocateIP (n : Network) (token t s : String) : Except AErr (Nat × Network) :=
  match n.endpoints.find? (fun e => e.token == token) with
  | some e => .ok (e.ip, n)
  | none =>
    match matchIdx n t s with
    | some i => allocAt n token i t s
    | none =>
      match reuseIdx n with
      | some i => allocAt n token i t s
      | none =>
        match carveBase n with
        | some base =>
          allocAt { n with blocks := n.blocks ++ [⟨⟨base, n.blockMask⟩, t, s, []⟩] }
            token n.blocks.length t s
        | none => .error .exhausted

/-- Modelled from the spec: `DeallocateIP(token)` -- "locate endpoint,
delegate to owning block, remove record"; unknown token fails
(section 4.5). -/
def deallocateIP (n : Network) (token : String) : Except AErr Network :=
  match n.endpoints.find? (fun e => e.token == token) with
  | none => .error .notFoundE
  | some e =>
    match firstIdx (fun b => b.cidr.containsAddrB e.ip) n.blocks 0 with
    | none => .error .internalE
    | some i =>
      match n.blocks[i]? with
      | none => .error .internalE
      | some b =>
        .ok { n with
          blocks := n.blocks.set i
            { b with allocated := b.allocated.filter (fun o => !(b.cidr.base + o == e.ip)) }
          endpoints := n.endpoints.filter (fun e' => !(e'.token == token)) }

/-- Modelled from the spec: `BlackOut(cidr)` -- reject when the CIDR is
not inside the network, covers the whole network, or overlaps a live
allocation; a prior blackout contained in the new one is replaced
("wider wins", section 4.5; repeated blackout of the same CIDR is a
no-op, section 7). -/
def blackOut (n : Network) (c : CIDR) : Except AErr Network :=
  if n.cidr.containsC c then
    if c.containsC n.cidr then .error .conflictE
    else if n.blocks.any (fun b => b.allocated.any fun o => c.containsAddrB (b.cidr.base + o)) then
      .error .conflictE
    else .ok { n with blackouts := c :: n.blackouts.filter (fun b => !(c.containsC b)) }
  else .error .notFoundE

/-- Modelled from the spec: `UnBlackOut(cidr)` -- "require exact CIDR
match of a recorded blackout; otherwise fail" (section 4.5). -/
def unBlackOut (n : Network) (c : CIDR) : Except AErr Network :=
  if n.blackouts.any (fun b => decide (b = c)) then
    .ok { n with blackouts := n.blackouts.filter (fun b => !(decide (b = c))) }
  else .error .notFoundE

/-- State after an allocation (unchanged when the call failed). -/
def afterA (n : Network) (token t s : String) : Network :=
  match allocateIP n token t s with
  | .ok (_, n') => n'
  | .error _ => n

/-- State after a deallocation (unchanged when the call failed). -/
def afterD (n : Network) (token : String) : Network :=
  match deallocateIP n token with
  | .ok n' => n'
  | .error _ => n

/-- State after `UnBlackOut` (unchanged when the call failed). -/
def afterU (n : Network) (c : CIDR) : Network :=
  match unBlackOut n c with
  | .ok n' => n'
  | .error _ => n

/-! Host placement.  `AddHost` of the missing client source is modelled
from the specification's host registry (section 4.3) with its leaf
selection calibrated against the repository's own tests
(`TestHostAdditionSimple`, `TestHostAdditionTags`): when several leaves
match, a matching leaf with the fewest hosts receives the new host
(earliest such leaf on a tie), which reproduces the 2/2 and 4/2/4/2
splits the tests demand.  The spec's "first in tree order wins" rule is
kept alongside as `addHostSpecFirstMatch` for comparison. -/

/-- Modelled from the spec: a leaf group of the topology tree, reduced
to the data host placement uses -- its `assignment` tag selector and its
ordered host list (sections 3 and 4.3).  The list of leaves of a network
is given in tree order. -/
structure LeafG where
  name : String
  assignment : List (String × String)
  hosts : List String
deriving DecidableEq

/-- Modelled from the spec: a host, `(name, IP, tags)` (section 3); the
IP plays no role in placement ("hosts are placed by tag match, never by
subnet of their IP") and is dropped. -/
structure HostT where
  name : String
  tags : List (String × String)
deriving DecidableEq

/-- Modelled from the spec: assignment matching -- the assignment's
"keys are a subset of the host's tag keys and ... values all match"
(section 4.3); the empty selector matches everything (section 9). -/
def tagsMatch (assignment tags : List (String × String)) : Bool :=
  assignment.all fun kv => tags.lookup kv.1 == some kv.2

/-- Scan the leaves for the matching leaf with the fewest hosts,
threading the best `(index, host count)` seen so far; on a tie the
earlier leaf is kept.  Calibrated from `TestHostAdditionSimple` and
`TestHostAdditionTags`, which require hosts to spread over equally
matching leaves. -/
def bestIdxAux (h : HostT) : List LeafG → Nat → Option (Nat × Nat) → Option (Nat × Nat)
  | [], _, acc => acc
  | g :: gs, i, acc =>
    bestIdxAux h gs (i + 1)
      (if tagsMatch g.assignment h.tags then
        match acc with
        | none => some (i, g.hosts.length)
        | some (j, c) => if g.hosts.length < c then some (i, g.hosts.length) else some (j, c)
      else acc)

/-- Modelled from the spec and the repository's tests: `AddHost` --
"rejects duplicate names; ... rejects when no leaf accepts the host"
(section 4.3); the accepted host joins the matching leaf with the
fewest hosts. -/
def addHost (leaves : List LeafG) (h : HostT) : Except AErr (List LeafG) :=
  if leaves.any (fun g => g.hosts.contains h.name) then .error .conflictE
  else
    match bestIdxAux h leaves 0 none with
    | some (i, _) =>
      match leaves[i]? with
      | some g => .ok (leaves.set i { g with hosts := g.hosts ++ [h.name] })
      | none => .error .internalE
    | none => .error .notFoundE

/-- Modelled from the spec's words alone: the placement rule as the spec
states it -- "if multiple candidates match, the first in tree order
wins" (section 3).  Kept for comparison with `addHost`; the
repository's tests contradict this rule. -/
def addHostSpecFirstMatch (leaves : List LeafG) (h : HostT) : Except AErr (List LeafG) :=
  if leaves.any (fun g => g.hosts.contains h.name) then .error .conflictE
  else
    match firstIdx (fun g => tagsMatch g.assignment h.tags) leaves 0 with
    | some i =>
      match leaves[i]? with
      | some g => .ok (leaves.set i { g with hosts := g.hosts ++ [h.name] })
      | none => .error .internalE
    | none => .error .notFoundE

/-- Fold a list of hosts through `addHost`, keeping the state unchanged
on a failed addition. -/
def addAll (leaves : List LeafG) (hs : List HostT) : List LeafG :=
  hs.foldl (fun ls h => match addHost ls h with | .ok ls' => ls' | .error _ => ls) leaves

/-- Fold a list of hosts through `addHostSpecFirstMatch`, keeping the
state unchanged on a failed addition. -/
def addAllSpec (leaves : List LeafG) (hs : List HostT) : List LeafG :=
  hs.foldl (fun ls h => match addHostSpecFirstMatch ls h with | .ok ls' => ls' | .error _ => ls) leaves

/-- Number of leaves whose host list contains `nm`. -/
def leavesWith (leaves : List LeafG) (nm : String) : Nat :=
  (leaves.filter (fun g => g.hosts.contains nm)).length

end Ipam

namespace Legacy

/-!
Embedding of the legacy RDBMS-backed IPAM store, translated from the
source file holding `ipamStore.addEndpoint` and `getEffectiveNetworkID`.
The endpoints table is a list of rows; `sql.NullString` request tokens
are `Option String`; IP address strings are represented by their 32-bit
integer value (the source materialises them with `common.IntToIPv4`,
which is injective on 32-bit values).
-/

/-- A row of the endpoints table (`common.IPAMEndpoint`), with the
fields `addEndpoint` reads and writes. -/
structure Endpt where
  id : Nat
  requestToken : Option String
  hostId : Nat
  tenantID : Nat
  segmentID : Nat
  networkID : Nat
  effectiveNetworkID : Nat
  ip : Nat
  name : String
  inUse : Bool
deriving DecidableEq

/-- The two datacenter parameters `addEndpoint` uses:
`dc.EndpointSpaceBits` (the stride) and `dc.EndpointBits`. -/
structure Datacenter where
  endpointSpaceBits : Nat
  endpointBits : Nat
deriving DecidableEq

/-- Translation of `getEffectiveNetworkID`: the source computes
`3 + (1 << stride) * EndpointNetworkID` in Go `uint64` arithmetic, so
the shift and the product and sum wrap modulo `2 ^ 64` (a shift by 64
or more yields 0); the constant starts at 3 because offsets 1 and 2 are
reserved for the gateway and DHCP (and 0 for the network address). -/
def getEffectiveNetworkID (endpointNetworkID : Nat) (stride : Nat) : Nat :=
  (3 + 2 ^ stride % 2 ^ 64 * endpointNetworkID) % 2 ^ 64

/-- The `uint64(1<<(dc.EndpointSpaceBits+dc.EndpointBits) - 1)` bound of
`addEndpoint`, computed in wrapping `uint64` arithmetic: for exponents
of 64 or more the shift wraps to 0 and the subtraction then wraps to
`2 ^ 64 - 1`. -/
def maxEffNetID (dc : Datacenter) : Nat :=
  (2 ^ (dc.endpointSpaceBits + dc.endpointBits) % 2 ^ 64 + (2 ^ 64 - 1)) % 2 ^ 64

/-- The idempotency lookup of `addEndpoint` (lines guarded by
`endpoint.RequestToken.Valid && endpoint.RequestToken.String != ""`):
the first row carrying the request token, when the token is present and
non-empty. -/
def tokenLookup (db : List Endpt) (tok : Option String) : Option Endpt :=
  match tok with
  | some t => if t = "" then none else db.find? (fun e => e.requestToken == some t)
  | none => none

/-- Rows matching the `host_id = ? AND tenant_id = ? AND segment_id = ?`
filter of `addEndpoint`. -/
def matchingRows (db : List Endpt) (ep : Endpt) : List Endpt :=
  db.filter fun e =>
    e.hostId == ep.hostId && e.tenantID == ep.tenantID && e.segmentID == ep.segmentID

/-- The `IFNULL(MAX(network_id),-1)+1` selection over the matching
rows. -/
def nextNetworkID (rows : List Endpt) : Nat :=
  match (rows.map (fun e => e.networkID)).max? with
  | some m => m + 1
  | none => 0

/-- The reuse selection of `addEndpoint`: among matching rows with
`in_use = 0`, the row with the least `network_id` (the
`SELECT MIN(network_id), ip ... ORDER BY MIN(network_id) ASC` query). -/
def minFreeRow (rows : List Endpt) : Option Endpt :=
  (rows.filter (fun e => e.inUse == false)).foldl
    (fun acc e =>
      match acc with
      | none => some e
      | some a => if e.networkID < a.networkID then some e else some a)
    none

/-- Translation of `ipamStore.addEndpoint`: idempotent return on a known
request token; otherwise compute the next network ID for the
host/tenant/segment, derive the effective network ID, and either insert
a fresh row (when within `dc.EndpointSpaceBits + dc.EndpointBits` bits)
or fall back to reusing a released IP of the same host/tenant/segment,
updating only that row's `name` and `in_use` fields (the source's
comment flags that the other fields are carried over).  The effective
network ID and the bit-capacity bound are computed in wrapping `uint64`
arithmetic, as in the Go source. -/
def addEndpoint (db : List Endpt) (ep : Endpt) (upToEndpointIpInt : Nat) (dc : Datacenter) :
    Except String (Endpt × List Endpt) :=
  match tokenLookup db ep.requestToken with
  | some e0 =>
    .ok ({ id := e0.id, requestToken := e0.requestToken, hostId := e0.hostId,
           tenantID := e0.tenantID, segmentID := e0.segmentID, networkID := e0.networkID,
           effectiveNetworkID := e0.effectiveNetworkID, ip := e0.ip, name := e0.name,
           inUse := e0.inUse }, db)
  | none =>
    let rows := matchingRows db ep
    let netID := nextNetworkID rows
    let effID := getEffectiveNetworkID netID dc.endpointSpaceBits
    if effID ≤ maxEffNetID dc then
      let newEp : Endpt :=
        { ep with inUse := true, networkID := netID, effectiveNetworkID := effID,
                  ip := Nat.lor upToEndpointIpInt effID }
      .ok (newEp, db ++ [newEp])
    else
      match minFreeRow rows with
      | some e1 =>
        let updEp : Endpt :=
          { ep with inUse := true, networkID := netID, effectiveNetworkID := effID, ip := e1.ip }
        .ok (updEp,
          db.map fun e =>
            if e.ip == e1.ip && e.inUse == false then { e with name := ep.name, inUse := true }
            else e)
      | none => .error "Out of IP addresses."

end Legacy

namespace Ipam

/-!
Topology resolver.  `UpdateTopology`'s prefix assignment is modelled
from the specification (section 4.2): with the working CIDR `[lo, hi)`
of prefix length `plen` and `k` immediate children, `ceil(log2 k)`
extra prefix bits are taken, the children receive consecutive
sub-ranges of size `2 ^ (32 - (plen + ceil(log2 k)))` in declaration
order, and the last child absorbs the remaining contiguous span of the
parent ("unused halves ... are absorbed by the last child").
-/

/-- Ceiling binary logarithm: the least number of extra prefix bits
`b ≤ 32` with `k ≤ 2 ^ b` (the spec's `ceil(log2 (k))`, section 4.2
step 2); degenerates to 33 for `k > 2 ^ 32`, which no 32-bit prefix
split can reach. -/
def clog2 (k : Nat) : Nat := ((List.range 33).find? (fun b => k ≤ 2 ^ b)).getD 33

/-- Modelled from the spec: an input group tree of a
`TopologyDefinition` map (section 4.2); hosts and assignments play no
role in prefix generation and are dropped. -/
inductive GTree where
  | node (name : String) (children : List GTree)

/-- Modelled from the spec: a resolved group -- the group with the
address range `[lo, hi)` and prefix length the resolver assigned to it
(section 4.2 steps 1-3). -/
inductive RTree where
  | node (name : String) (lo hi plen : Nat) (children : List RTree)

/-- Start of the resolved group's address range. -/
def RTree.lo : RTree → Nat
  | .node _ l _ _ _ => l

/-- End (exclusive) of the resolved group's address range. -/
def RTree.hi : RTree → Nat
  | .node _ _ h _ _ => h

/-- Prefix length assigned to the resolved group. -/
def RTree.plen : RTree → Nat
  | .node _ _ _ p _ => p

/-- Resolved children of the group. -/
def RTree.children : RTree → List RTree
  | .node _ _ _ _ c => c

mutual

/-- Modelled from the spec: prefix assignment of `UpdateTopology`
(section 4.2) -- resolve the group over the working range `[lo, hi)` of
prefix length `plen`, bisecting it `k` ways with `ceil(log2 k)` extra
prefix bits for the `k` children in declaration order. -/
def resolve (lo hi plen : Nat) : GTree → RTree
  | .node nm ch =>
    .node nm lo hi plen
      (resolveKids lo (2 ^ (32 - (plen + clog2 ch.length))) (plen + clog2 ch.length) hi ch)
  termination_by structural g => g

/-- Assign consecutive sub-ranges of size `q` and prefix length `plen'`
to the children in order, the last child absorbing the remainder of the
parent range up to `hi`. -/
def resolveKids (lo q plen' hi : Nat) : List GTree → List RTree
  | [] => []
  | [c] => [resolve lo hi plen' c]
  | c :: c' :: cs => resolve lo (lo + q) plen' c :: resolveKids (lo + q) q plen' hi (c' :: cs)
  termination_by structural l => l

end

mutual

/-- Does the tree fit in 32 address bits: at every node the assigned
prefix length plus the extra bits for its children stays at most 32
(the resolver's "block mask coarser than leaf" style precondition,
section 4.2 step 4). -/
def fitsB (plen : Nat) : GTree → Bool
  | .node _ ch =>
    decide (plen + clog2 ch.length ≤ 32) && fitsKids (plen + clog2 ch.length) ch
  termination_by structural g => g

/-- All children fit at prefix length `plen'`. -/
def fitsKids (plen' : Nat) : List GTree → Bool
  | [] => true
  | c :: cs => fitsB plen' c && fitsKids plen' cs
  termination_by structural l => l

end

/-- Two resolved groups occupy disjoint address ranges. -/
def disjointRT (a b : RTree) : Prop := a.hi ≤ b.lo ∨ b.hi ≤ a.lo

/-- The resolver's tree invariant: at every node, the children's ranges
are pairwise disjoint and each child's range lies inside its parent's
range ("sibling groups have disjoint CIDRs; parent CIDR covers union of
child CIDRs", sections 3 and 8). -/
inductive GoodTree : RTree → Prop where
  | mk : ∀ (nm : String) (lo hi plen : Nat) (ch : List RTree),
      ch.Pairwise disjointRT →
      (∀ c ∈ ch, lo ≤ c.lo ∧ c.lo ≤ c.hi ∧ c.hi ≤ hi) →
      (∀ c ∈ ch, GoodTree c) →
      GoodTree (.node nm lo hi plen ch)

end Ipam

namespace Ipam

/-! Helper lemmas about the search primitives of the model. -/

theorem firstIdx_some_spec {α : Type} (p : α → Bool) :
    ∀ (l : List α) (k j : Nat), firstIdx p l k = some j →
      k ≤ j ∧ ∃ x, l[j - k]? = some x ∧ p x = true ∧
        ∀ m x', m < j - k → l[m]? = some x' → p x' = false := by
  intro l
  induction l with
  | nil => intro k j h; simp [firstIdx] at h
  | cons x xs ih =>
    intro k j h
    by_cases hp : p x = true
    · have hj : j = k := by simp [firstIdx, hp] at h; omega
      subst hj
      refine ⟨le_refl _, x, ?_, hp, ?_⟩
      · simp
      · intro m x' hm _; omega
    · have h' : firstIdx p xs (k + 1) = some j := by
        simpa [firstIdx, hp] using h
      obtain ⟨hk, y, hy, hpy, hmin⟩ := ih (k + 1) j h'
      refine ⟨by omega, y, ?_, hpy, ?_⟩
      · have : j - k = (j - (k + 1)) + 1 := by omega
        rw [this]
        simpa using hy
      · intro m x' hm hx'
        match m, hx' with
        | 0, hx' =>
          have hx0 : x = x' := by simpa using hx'
          subst hx0
          simpa using hp
        | m' + 1, hx' =>
          have hx2 : xs[m']? = some x' := by simpa using hx'
          exact hmin m' x' (by omega) hx2

theorem firstIdx_none_spec {α : Type} (p : α → Bool) :
    ∀ (l : List α) (k : Nat), firstIdx p l k = none →
      ∀ (m : Nat) (x : α), l[m]? = some x → p x = false := by
  intro l
  induction l with
  | nil => intro k _ m x hx; simp at hx
  | cons y ys ih =>
    intro k h m x hx
    by_cases hp : p y = true
    · simp [firstIdx, hp] at h
    · have h' : firstIdx p ys (k + 1) = none := by simpa [firstIdx, hp] using h
      match m, hx with
      | 0, hx =>
        have hx0 : y = x := by simpa using hx
        subst hx0
        simpa using hp
      | m' + 1, hx =>
        have hx2 : ys[m']? = some x := by simpa using hx
        exact ih (k + 1) h' m' x hx2

theorem lowestFreeFrom_spec (b : Block) (bl : List CIDR) :
    ∀ (fuel o0 o : Nat), lowestFreeFrom b bl o0 fuel = some o →
      o0 ≤ o ∧ freeB b bl o = true ∧ ∀ m, o0 ≤ m → m < o → freeB b bl m = false := by
  intro fuel
  induction fuel with
  | zero => intro o0 o h; simp [lowestFreeFrom] at h
  | succ f ih =>
    intro o0 o h
    by_cases hf : freeB b bl o0 = true
    · have : o = o0 := by simp [lowestFreeFrom, hf] at h; omega
      subst this
      exact ⟨le_refl _, hf, fun m h1 h2 => absurd (lt_of_le_of_lt h1 h2) (lt_irrefl _)⟩
    · have h' : lowestFreeFrom b bl (o0 + 1) f = some o := by
        simpa [lowestFreeFrom, hf] using h
      obtain ⟨h1, h2, h3⟩ := ih (o0 + 1) o h'
      refine ⟨by omega, h2, ?_⟩
      intro m hm1 hm2
      rcases Nat.eq_or_lt_of_le hm1 with he | hl
      · subst he; simpa using hf
      · exact h3 m hl hm2

theorem lowestFree_spec (b : Block) (bl : List CIDR) (o : Nat)
    (h : lowestFree b bl = some o) :
    freeB b bl o = true ∧ ∀ m, m < o → freeB b bl m = false := by
  obtain ⟨_, h2, h3⟩ := lowestFreeFrom_spec b bl b.cidr.size 0 o h
  exact ⟨h2, fun m hm => h3 m (Nat.zero_le m) hm⟩

theorem freeB_not_covered (b : Block) (bl : List CIDR) (o : Nat)
    (h : freeB b bl o = true) :
    ∀ c ∈ bl, c.containsAddrB (b.cidr.base + o) = false := by
  have : coveredB (b.cidr.base + o) bl = false := by
    revert h
    unfold freeB
    cases coveredB (b.cidr.base + o) bl <;> simp
  intro c hc
  revert this
  unfold coveredB
  intro hcov
  rw [List.any_eq_false] at hcov
  simpa using hcov c hc

end Ipam

/-- C2: for every endpoints table and every request token that already
identifies an endpoint row, `addEndpoint` returns that row's IP (it
copies every field of the existing row into the result) and leaves the
table unchanged -- no new row is created; `addEndpoint` is idempotent
in the request token. -/
theorem addEndpoint_idempotent_token (db : List Legacy.Endpt) (ep : Legacy.Endpt)
    (up : Nat) (dc : Legacy.Datacenter) (t : String) (e0 : Legacy.Endpt)
    (ht : ep.requestToken = some t) (hne : t ≠ "")
    (hfind : db.find? (fun e => e.requestToken == some t) = some e0) :
    Legacy.addEndpoint db ep up dc = .ok (e0, db) := by
  unfold Legacy.addEndpoint Legacy.tokenLookup
  rw [ht]
  simp [hne, hfind]

/-- Closed instance of `addEndpoint_idempotent_token`: a one-row table
whose row carries token "tok"; re-adding with "tok" returns the stored
row (IP 42) and the unchanged table. -/
theorem addEndpoint_idempotent_token_witness :
    (⟨3, some "tok", 5, 6, 7, 0, 0, 0, "new", false⟩ : Legacy.Endpt).requestToken = some "tok" ∧
    ("tok" : String) ≠ "" ∧
    ([⟨1, some "tok", 5, 6, 7, 2, 11, 42, "old", true⟩] : List Legacy.Endpt).find?
        (fun e => e.requestToken == some "tok") =
      some ⟨1, some "tok", 5, 6, 7, 2, 11, 42, "old", true⟩ ∧
    Legacy.addEndpoint [⟨1, some "tok", 5, 6, 7, 2, 11, 42, "old", true⟩]
        ⟨3, some "tok", 5, 6, 7, 0, 0, 0, "new", false⟩ 100 ⟨4, 4⟩ =
      .ok (⟨1, some "tok", 5, 6, 7, 2, 11, 42, "old", true⟩,
           [⟨1, some "tok", 5, 6, 7, 2, 11, 42, "old", true⟩]) :=
  ⟨rfl, by decide, by decide,
    addEndpoint_idempotent_token _ _ 100 ⟨4, 4⟩ "tok" _ rfl (by decide) (by decide)⟩

/-- C10 counterexample: the legacy store computes the effective network
ID in wrapping `uint64` arithmetic, so it is not `3 + 2 ^ s * n` for
every network ID `n` and stride `s`: a shift by 64 wraps to 0 (stride
64 yields 3 whatever the network ID), a wrapped sum can fall below 3,
and `addEndpoint` then passes the `maxEffNetID` guard and assigns the
reserved DHCP offset 2 to a freshly inserted endpoint. -/
theorem effective_network_id_wraps :
    Legacy.getEffectiveNetworkID 1 64 = 3 ∧
    (3 : Nat) ≠ 3 + 2 ^ 64 * 1 ∧
    Legacy.getEffectiveNetworkID (2 ^ 64 - 1) 0 = 2 ∧
    (2 : Nat) ≠ 3 + 2 ^ 0 * (2 ^ 64 - 1) ∧
    Legacy.addEndpoint [⟨1, some "t0", 1, 1, 1, 2 ^ 64 - 2, 3, 259, "e0", true⟩]
        ⟨2, some "t1", 1, 1, 1, 0, 0, 0, "e1", false⟩ 256 ⟨0, 64⟩ =
      .ok (⟨2, some "t1", 1, 1, 1, 2 ^ 64 - 1, 2, 258, "e1", true⟩,
           [⟨1, some "t0", 1, 1, 1, 2 ^ 64 - 2, 3, 259, "e0", true⟩,
            ⟨2, some "t1", 1, 1, 1, 2 ^ 64 - 1, 2, 258, "e1", true⟩]) ∧
    (2 : Nat) < 3 := by
  refine ⟨by decide, by decide, by decide, by decide, by decide, by decide⟩

/-- C10 (amended): the legacy store's effective network ID is
`(3 + (1 << s) * n) mod 2 ^ 64`; whenever `3 + 2 ^ s * n` fits in 64
bits it is exactly `3 + 2 ^ s * n` and hence at least 3, so the
host-relative offsets 0, 1 and 2 (network address, gateway, DHCP) are
not assigned in that regime; and the first endpoint inserted for a
fresh (host, tenant, segment) gets network ID 0, effective network ID 3
and the IP `upToEndpointIpInt | 3` unconditionally. -/
theorem effective_network_id_formula (n s : Nat) (db : List Legacy.Endpt) (ep : Legacy.Endpt)
    (up : Nat) (dc : Legacy.Datacenter)
    (hsmall : 3 + 2 ^ s * n < 2 ^ 64)
    (htok : Legacy.tokenLookup db ep.requestToken = none)
    (hmatch : Legacy.matchingRows db ep = [])
    (hcap : 3 ≤ Legacy.maxEffNetID dc) :
    Legacy.getEffectiveNetworkID n s = 3 + 2 ^ s * n ∧
    3 ≤ Legacy.getEffectiveNetworkID n s ∧
    ∃ r, Legacy.addEndpoint db ep up dc = .ok (r, db ++ [r]) ∧
      r.networkID = 0 ∧ r.effectiveNetworkID = 3 ∧ r.ip = Nat.lor up 3 := by
  have hformula : Legacy.getEffectiveNetworkID n s = 3 + 2 ^ s * n := by
    unfold Legacy.getEffectiveNetworkID
    rcases Nat.eq_zero_or_pos n with hn | hn
    · subst hn
      simp only [Nat.mul_zero, Nat.add_zero]
      exact Nat.mod_eq_of_lt (by norm_num)
    · have h1 : 2 ^ s ≤ 2 ^ s * n := Nat.le_mul_of_pos_right _ hn
      have hpow : 2 ^ s < 2 ^ 64 := by linarith
      rw [Nat.mod_eq_of_lt hpow, Nat.mod_eq_of_lt hsmall]
  refine ⟨hformula, by rw [hformula]; exact Nat.le_add_right 3 _, ?_⟩
  have key : Legacy.addEndpoint db ep up dc = .ok ({ ep with inUse := true, networkID := 0, effectiveNetworkID := 3, ip := Nat.lor up 3 }, db ++ [{ ep with inUse := true, networkID := 0, effectiveNetworkID := 3, ip := Nat.lor up 3 }]) := by
    unfold Legacy.addEndpoint
    rw [htok, hmatch]
    have h0 : Legacy.nextNetworkID [] = 0 := rfl
    have h3 : Legacy.getEffectiveNetworkID 0 dc.endpointSpaceBits = 3 := by
      unfold Legacy.getEffectiveNetworkID
      simp only [Nat.mul_zero, Nat.add_zero]
      exact Nat.mod_eq_of_lt (by norm_num)
    simp only [h0, h3]
    rw [if_pos hcap]
  exact ⟨_, key, rfl, rfl, rfl⟩

/-- Closed instance of `effective_network_id_formula`: inserting the
first endpoint of a fresh (host, tenant, segment) into an empty table
with a 4-bit stride yields network ID 0, effective network ID 3 and the
IP `256 | 3 = 259`. -/
theorem effective_network_id_formula_witness :
    3 + 2 ^ 4 * 2 < 2 ^ 64 ∧
    Legacy.tokenLookup ([] : List Legacy.Endpt)
        (⟨0, some "t1", 5, 6, 7, 0, 0, 0, "ep1", false⟩ : Legacy.Endpt).requestToken = none ∧
    Legacy.matchingRows ([] : List Legacy.Endpt)
        (⟨0, some "t1", 5, 6, 7, 0, 0, 0, "ep1", false⟩ : Legacy.Endpt) = [] ∧
    3 ≤ Legacy.maxEffNetID ⟨4, 4⟩ ∧
    (Legacy.getEffectiveNetworkID 2 4 = 3 + 2 ^ 4 * 2 ∧
     3 ≤ Legacy.getEffectiveNetworkID 2 4 ∧
     ∃ r, Legacy.addEndpoint [] ⟨0, some "t1", 5, 6, 7, 0, 0, 0, "ep1", false⟩ 256 ⟨4, 4⟩ =
        .ok (r, [] ++ [r]) ∧ r.networkID = 0 ∧ r.effectiveNetworkID = 3 ∧
        r.ip = Nat.lor 256 3) :=
  ⟨by decide, by decide, by decide, by decide,
    effective_network_id_formula 2 4 [] ⟨0, some "t1", 5, 6, 7, 0, 0, 0, "ep1", false⟩
      256 ⟨4, 4⟩ (by decide) (by decide) (by decide) (by decide)⟩

namespace Ipam

/-- C5: when the leaf has no block tagged with the request's
(tenant, segment) carrying a free bit, no reusable block and no room to
carve a new block, a fresh `AllocateIP` request fails with the
`Exhausted` error whose message is exactly "no available IP", and no IP
is assigned (the failing call produces no new state). -/
theorem allocateIP_exhausted_message (n : Network) (token t s : String)
    (hfresh : n.endpoints.find? (fun e => e.token == token) = none)
    (hmatch : matchIdx n t s = none)
    (hreuse : reuseIdx n = none)
    (hcarve : carveBase n = none) :
    allocateIP n token t s = .error .exhausted ∧
    AErr.message .exhausted = "no available IP" := by
  constructor
  · unfold allocateIP
    rw [hfresh, hmatch, hreuse, hcarve]
  · rfl

/-- Closed instance of `allocateIP_exhausted_message`: a /32 network
whose single block is fully allocated; a fresh request is refused with
"no available IP". -/
theorem allocateIP_exhausted_message_witness :
    (⟨⟨ip4 10 0 0 0, 32⟩, 32, [⟨⟨ip4 10 0 0 0, 32⟩, "ten1", "seg1", [0]⟩], [],
        [⟨"1", ip4 10 0 0 0⟩]⟩ : Network).endpoints.find? (fun e => e.token == "2") = none ∧
    matchIdx ⟨⟨ip4 10 0 0 0, 32⟩, 32, [⟨⟨ip4 10 0 0 0, 32⟩, "ten1", "seg1", [0]⟩], [],
        [⟨"1", ip4 10 0 0 0⟩]⟩ "ten1" "seg1" = none ∧
    reuseIdx ⟨⟨ip4 10 0 0 0, 32⟩, 32, [⟨⟨ip4 10 0 0 0, 32⟩, "ten1", "seg1", [0]⟩], [],
        [⟨"1", ip4 10 0 0 0⟩]⟩ = none ∧
    carveBase ⟨⟨ip4 10 0 0 0, 32⟩, 32, [⟨⟨ip4 10 0 0 0, 32⟩, "ten1", "seg1", [0]⟩], [],
        [⟨"1", ip4 10 0 0 0⟩]⟩ = none ∧
    (allocateIP ⟨⟨ip4 10 0 0 0, 32⟩, 32, [⟨⟨ip4 10 0 0 0, 32⟩, "ten1", "seg1", [0]⟩], [],
        [⟨"1", ip4 10 0 0 0⟩]⟩ "2" "ten1" "seg1" = .error .exhausted ∧
     AErr.message .exhausted = "no available IP") :=
  ⟨by decide, by decide, by decide, by decide,
    allocateIP_exhausted_message _ "2" "ten1" "seg1" (by decide) (by decide) (by decide)
      (by decide)⟩

/-- C9: `UnBlackOut` succeeds only on an exact match of a recorded
blackout CIDR: whenever no recorded blackout equals the argument
(including any strict superset or subset of one), the call fails with
`NotFound` and -- the failing call producing no new state -- the
blackout set is unchanged; on an exact match the recorded CIDR is
removed and blocks and endpoints are untouched. -/
theorem unBlackOut_exact_match (n : Network) (c : CIDR) :
    ((∀ b ∈ n.blackouts, b ≠ c) → unBlackOut n c = .error .notFoundE) ∧
    (c ∈ n.blackouts →
      unBlackOut n c =
        .ok { n with blackouts := n.blackouts.filter (fun b => !(decide (b = c))) }) := by
  constructor
  · intro h
    unfold unBlackOut
    have hany : n.blackouts.any (fun b => decide (b = c)) = false := by
      rw [List.any_eq_false]
      intro b hb
      simpa using h b hb
    rw [hany]
    rfl
  · intro h
    unfold unBlackOut
    have hany : n.blackouts.any (fun b => decide (b = c)) = true := by
      rw [List.any_eq_true]
      exact ⟨c, h, by simp⟩
    rw [hany]
    rfl

/-- Closed instance of `unBlackOut_exact_match`: with the single
recorded blackout 10.0.0.0/31, removing the superset 10.0.0.0/30 fails
with `NotFound`, while removing 10.0.0.0/31 itself empties the blackout
set. -/
theorem unBlackOut_exact_match_witness :
    (∀ b ∈ (⟨⟨ip4 10 0 0 0, 30⟩, 30, [], [⟨ip4 10 0 0 0, 31⟩], []⟩ : Network).blackouts,
        b ≠ (⟨ip4 10 0 0 0, 30⟩ : CIDR)) ∧
    unBlackOut ⟨⟨ip4 10 0 0 0, 30⟩, 30, [], [⟨ip4 10 0 0 0, 31⟩], []⟩ ⟨ip4 10 0 0 0, 30⟩ =
      .error .notFoundE ∧
    unBlackOut ⟨⟨ip4 10 0 0 0, 30⟩, 30, [], [⟨ip4 10 0 0 0, 31⟩], []⟩ ⟨ip4 10 0 0 0, 31⟩ =
      .ok ⟨⟨ip4 10 0 0 0, 30⟩, 30, [], [], []⟩ :=
  ⟨by decide,
   (unBlackOut_exact_match ⟨⟨ip4 10 0 0 0, 30⟩, 30, [], [⟨ip4 10 0 0 0, 31⟩], []⟩
      ⟨ip4 10 0 0 0, 30⟩).1 (by decide),
   by decide⟩

/-- C1: structural facts about a successful `allocAt`: the selected
block exists, the allocated offset is its lowest free bit and the
returned IP is the block's base plus that offset. -/
theorem allocAt_ip_free (n : Network) (token : String) (i : Nat) (t s : String)
    (ip : Nat) (n' : Network) (h : allocAt n token i t s = .ok (ip, n')) :
    ∃ b o, n.blocks[i]? = some b ∧ lowestFree b n.blackouts = some o ∧
      ip = b.cidr.base + o := by
  unfold allocAt at h
  split at h
  · exact absurd h (by simp)
  · rename_i b hb
    split at h
    · exact absurd h (by simp)
    · rename_i o hl
      simp only [Except.ok.injEq, Prod.mk.injEq] at h
      exact ⟨b, o, hb, hl, h.1.symm⟩

/-- C1: when a fresh allocation request for (tenant, segment) finds no
block tagged (tenant, segment) with a free bit, the first block in the
reusable state (all-zero bitmap, witnessed by the minimality conjunct)
is selected, its tenant and segment fields are re-tagged to the
request's pair in the very state that records the allocation, and the
returned IP comes from that block. -/
theorem reusable_block_retagged (n : Network) (token t s : String) (i o : Nat) (b : Block)
    (hfresh : n.endpoints.find? (fun e => e.token == token) = none)
    (hmatch : matchIdx n t s = none)
    (hreuse : reuseIdx n = some i)
    (hb : n.blocks[i]? = some b)
    (hfree : lowestFree b n.blackouts = some o) :
    allocateIP n token t s = .ok (b.cidr.base + o, { n with blocks := n.blocks.set i ⟨b.cidr, t, s, o :: b.allocated⟩, endpoints := n.endpoints ++ [⟨token, b.cidr.base + o⟩] }) ∧
    b.allocated = [] ∧
    (∀ j bj, j < i → n.blocks[j]? = some bj → bj.allocated ≠ []) := by
  refine ⟨?_, ?_, ?_⟩
  · unfold allocateIP
    simp only [hfresh, hmatch, hreuse]
    unfold allocAt
    simp only [hb, hfree]
  · obtain ⟨_, b', hb', hp, _⟩ := firstIdx_some_spec _ n.blocks 0 i hreuse
    rw [Nat.sub_zero, hb] at hb'
    have hbb : b = b' := by injection hb'
    subst hbb
    simpa using hp
  · intro j bj hj hbj
    obtain ⟨_, _, _, _, hmin⟩ := firstIdx_some_spec _ n.blocks 0 i hreuse
    have hfalse := hmin j bj (by omega) hbj
    intro hnil
    rw [hnil] at hfalse
    simp at hfalse

/-- Closed instance of `reusable_block_retagged`: one reusable block
tagged ("oldT", "oldS"); a fresh request for ("newT", "newS") selects
it, re-tags it and allocates its lowest offset. -/
theorem reusable_block_retagged_witness :
    (⟨⟨ip4 10 0 0 0, 30⟩, 30, [⟨⟨ip4 10 0 0 0, 30⟩, "oldT", "oldS", []⟩], [], []⟩ :
        Network).endpoints.find? (fun e => e.token == "2") = none ∧
    matchIdx ⟨⟨ip4 10 0 0 0, 30⟩, 30, [⟨⟨ip4 10 0 0 0, 30⟩, "oldT", "oldS", []⟩], [], []⟩
      "newT" "newS" = none ∧
    reuseIdx ⟨⟨ip4 10 0 0 0, 30⟩, 30, [⟨⟨ip4 10 0 0 0, 30⟩, "oldT", "oldS", []⟩], [], []⟩ =
      some 0 ∧
    (allocateIP ⟨⟨ip4 10 0 0 0, 30⟩, 30, [⟨⟨ip4 10 0 0 0, 30⟩, "oldT", "oldS", []⟩], [], []⟩
        "2" "newT" "newS" = .ok ((⟨⟨ip4 10 0 0 0, 30⟩, "oldT", "oldS", ([] : List Nat)⟩ : Block).cidr.base + 0, { (⟨⟨ip4 10 0 0 0, 30⟩, 30, [⟨⟨ip4 10 0 0 0, 30⟩, "oldT", "oldS", []⟩], [], []⟩ : Network) with blocks := (⟨⟨ip4 10 0 0 0, 30⟩, 30, [⟨⟨ip4 10 0 0 0, 30⟩, "oldT", "oldS", []⟩], [], []⟩ : Network).blocks.set 0 ⟨⟨ip4 10 0 0 0, 30⟩, "newT", "newS", 0 :: []⟩, endpoints := (⟨⟨ip4 10 0 0 0, 30⟩, 30, [⟨⟨ip4 10 0 0 0, 30⟩, "oldT", "oldS", []⟩], [], []⟩ : Network).endpoints ++ [⟨"2", (⟨⟨ip4 10 0 0 0, 30⟩, "oldT", "oldS", ([] : List Nat)⟩ : Block).cidr.base + 0⟩] }) ∧
     ([] : List Nat) = [] ∧
     (∀ j bj, j < 0 →
        (⟨⟨ip4 10 0 0 0, 30⟩, 30, [⟨⟨ip4 10 0 0 0, 30⟩, "oldT", "oldS", []⟩], [], []⟩ :
          Network).blocks[j]? = some bj → bj.allocated ≠ [])) :=
  ⟨by decide, by decide, by decide,
    reusable_block_retagged _ "2" "newT" "newS" 0 0 _ (by decide) (by decide) (by decide)
      (by decide) (by decide)⟩

/-- Initial state of scenario S1 (`TestIPReuse`-style): network
10.0.0.0/29 with blockMask 30, no blocks, no blackouts. -/
def c6n0 : Network := ⟨⟨ip4 10 0 0 0, 29⟩, 30, [], [], []⟩

/-- S1 after allocating token "1". -/
def c6n1 : Network := afterA c6n0 "1" "ten1" "seg1"

/-- S1 after allocating token "2". -/
def c6n2 : Network := afterA c6n1 "2" "ten1" "seg1"

/-- S1 after allocating token "3". -/
def c6n3 : Network := afterA c6n2 "3" "ten1" "seg1"

/-- S1 after allocating token "4". -/
def c6n4 : Network := afterA c6n3 "4" "ten1" "seg1"

/-- S1 after deallocating token "1" (which held 10.0.0.0). -/
def c6n5 : Network := afterD c6n4 "1"

/-- C6: within a block the allocation always returns the lowest-index
free bit (first conjunct: the offset delivered by `lowestFree` is free
and every lower offset is not), and concretely, on 10.0.0.0/29 with
blockMask 30, tokens 1-4 receive 10.0.0.0-10.0.0.3; after deallocating
token 1 (holder of the block's lowest address 10.0.0.0), a fresh token
5 receives that same lowest address again. -/
theorem allocation_lowest_free_bit (b : Block) (bl : List CIDR) (o : Nat)
    (hl : lowestFree b bl = some o) :
    (freeB b bl o = true ∧ ∀ m, m < o → freeB b bl m = false) ∧
    allocateIP c6n0 "1" "ten1" "seg1" = .ok (ip4 10 0 0 0, c6n1) ∧
    allocateIP c6n1 "2" "ten1" "seg1" = .ok (ip4 10 0 0 1, c6n2) ∧
    allocateIP c6n2 "3" "ten1" "seg1" = .ok (ip4 10 0 0 2, c6n3) ∧
    allocateIP c6n3 "4" "ten1" "seg1" = .ok (ip4 10 0 0 3, c6n4) ∧
    deallocateIP c6n4 "1" = .ok c6n5 ∧
    allocateIP c6n5 "5" "ten1" "seg1" = .ok (ip4 10 0 0 0, afterA c6n5 "5" "ten1" "seg1") :=
  ⟨lowestFree_spec b bl o hl, by decide, by decide, by decide, by decide, by decide, by decide⟩

/-- Closed instance of `allocation_lowest_free_bit`: a /30 block with
offset 0 allocated; the lowest free bit is offset 1. -/
theorem allocation_lowest_free_bit_witness :
    lowestFree ⟨⟨ip4 10 0 0 0, 30⟩, "t", "s", [0]⟩ [] = some 1 ∧
    ((freeB ⟨⟨ip4 10 0 0 0, 30⟩, "t", "s", [0]⟩ [] 1 = true ∧
      ∀ m, m < 1 → freeB ⟨⟨ip4 10 0 0 0, 30⟩, "t", "s", [0]⟩ [] m = false) ∧
     allocateIP c6n0 "1" "ten1" "seg1" = .ok (ip4 10 0 0 0, c6n1) ∧
     allocateIP c6n1 "2" "ten1" "seg1" = .ok (ip4 10 0 0 1, c6n2) ∧
     allocateIP c6n2 "3" "ten1" "seg1" = .ok (ip4 10 0 0 2, c6n3) ∧
     allocateIP c6n3 "4" "ten1" "seg1" = .ok (ip4 10 0 0 3, c6n4) ∧
     deallocateIP c6n4 "1" = .ok c6n5 ∧
     allocateIP c6n5 "5" "ten1" "seg1" = .ok (ip4 10 0 0 0, afterA c6n5 "5" "ten1" "seg1")) :=
  ⟨by decide, allocation_lowest_free_bit ⟨⟨ip4 10 0 0 0, 30⟩, "t", "s", [0]⟩ [] 1 (by decide)⟩

/-- Initial state of scenario S2 (`TestSegments`): network 10.0.0.0/29
with blockMask 30. -/
def s2n0 : Network := ⟨⟨ip4 10 0 0 0, 29⟩, 30, [], [], []⟩

/-- S2 after allocating "x1" for (ten1, seg1). -/
def s2n1 : Network := afterA s2n0 "x1" "ten1" "seg1"

/-- S2 after allocating "x2" for (ten1, seg1). -/
def s2n2 : Network := afterA s2n1 "x2" "ten1" "seg1"

/-- S2 after allocating "x3" for (ten1, seg2). -/
def s2n3 : Network := afterA s2n2 "x3" "ten1" "seg2"

/-- C7: a block with live allocations is pinned to its
(tenant, segment): the block pool only ever selects an existing block
that either carries exactly the request's (tenant, segment) tags (first
conjunct, matching scan) or is in the reusable all-zero state (second
conjunct, reuse scan) -- a non-empty block tagged with another segment
is never drawn from.  Concretely, on 10.0.0.0/29 with blockMask 30, two
allocations for (ten1, seg1) return 10.0.0.0 and 10.0.0.1, and the next
allocation for (ten1, seg2) carves a new block and returns 10.0.0.4,
leaving the first block seg1-pinned. -/
theorem block_pinned_tenant_segment :
    (∀ (n : Network) (t s : String) (i : Nat), matchIdx n t s = some i →
      ∃ b, n.blocks[i]? = some b ∧ b.tenant = t ∧ b.segment = s) ∧
    (∀ (n : Network) (i : Nat), reuseIdx n = some i →
      ∃ b, n.blocks[i]? = some b ∧ b.allocated = []) ∧
    allocateIP s2n0 "x1" "ten1" "seg1" = .ok (ip4 10 0 0 0, s2n1) ∧
    allocateIP s2n1 "x2" "ten1" "seg1" = .ok (ip4 10 0 0 1, s2n2) ∧
    allocateIP s2n2 "x3" "ten1" "seg2" = .ok (ip4 10 0 0 4, s2n3) ∧
    s2n3.blocks = [⟨⟨ip4 10 0 0 0, 30⟩, "ten1", "seg1", [1, 0]⟩,
                   ⟨⟨ip4 10 0 0 4, 30⟩, "ten1", "seg2", [0]⟩] := by
  refine ⟨?_, ?_, by decide, by decide, by decide, by decide⟩
  · intro n t s i h
    obtain ⟨_, b, hb, hp, _⟩ := firstIdx_some_spec _ n.blocks 0 i h
    rw [Nat.sub_zero] at hb
    simp only [Bool.and_eq_true, beq_iff_eq] at hp
    exact ⟨b, hb, hp.1.1, hp.1.2⟩
  · intro n i h
    obtain ⟨_, b, hb, hp, _⟩ := firstIdx_some_spec _ n.blocks 0 i h
    rw [Nat.sub_zero] at hb
    refine ⟨b, hb, ?_⟩
    simpa using hp

/-- Closed instance of `block_pinned_tenant_segment`: in the S2 state
holding one (ten1, seg1) block, the matching scan for (ten1, seg1)
selects block 0 and that block indeed carries the requested pair. -/
theorem block_pinned_tenant_segment_witness :
    matchIdx s2n1 "ten1" "seg1" = some 0 ∧
    (∃ b, s2n1.blocks[0]? = some b ∧ b.tenant = "ten1" ∧ b.segment = "seg1") :=
  ⟨by decide, block_pinned_tenant_segment.1 s2n1 "ten1" "seg1" 0 (by decide)⟩

/-- Initial state of scenario S3 (`TestBlackout`): network 10.0.0.0/30
with blockMask 30 and the blackout 10.0.0.0/31 in force. -/
def c4n0 : Network := ⟨⟨ip4 10 0 0 0, 30⟩, 30, [], [⟨ip4 10 0 0 0, 31⟩], []⟩

/-- S3 after allocating token "1". -/
def c4n1 : Network := afterA c4n0 "1" "ten1" "seg1"

/-- S3 after allocating token "2". -/
def c4n2 : Network := afterA c4n1 "2" "ten1" "seg1"

/-- S3 after removing the blackout 10.0.0.0/31. -/
def c4n3 : Network := afterU c4n2 ⟨ip4 10 0 0 0, 31⟩

/-- S3 after allocating token "4". -/
def c4n4 : Network := afterA c4n3 "4" "ten1" "seg1"

/-- C4: a fresh allocation never returns an address covered by a
blackout in force (first conjunct), and the S3 scenario concretely: on
10.0.0.0/30 with blockMask 30 and blackout 10.0.0.0/31, allocations
return 10.0.0.2 then 10.0.0.3, a third fails with `Exhausted`
("no available IP"); blacking out 10.0.0.2/31 over the live addresses
fails with `Conflict`; after `UnBlackOut` of 10.0.0.0/31 two further
allocations return 10.0.0.0 and 10.0.0.1 (and the network is then
full). -/
theorem blackout_addresses_never_allocated :
    (∀ (n : Network) (token t s : String) (ip : Nat) (n' : Network),
      n.endpoints.find? (fun e => e.token == token) = none →
      allocateIP n token t s = .ok (ip, n') →
      ∀ c ∈ n.blackouts, c.containsAddrB ip = false) ∧
    allocateIP c4n0 "1" "ten1" "seg1" = .ok (ip4 10 0 0 2, c4n1) ∧
    allocateIP c4n1 "2" "ten1" "seg1" = .ok (ip4 10 0 0 3, c4n2) ∧
    allocateIP c4n2 "3" "ten1" "seg1" = .error .exhausted ∧
    AErr.message .exhausted = msgNoAvailableIP ∧
    blackOut c4n2 ⟨ip4 10 0 0 2, 31⟩ = .error .conflictE ∧
    unBlackOut c4n2 ⟨ip4 10 0 0 0, 31⟩ = .ok c4n3 ∧
    allocateIP c4n3 "4" "ten1" "seg1" = .ok (ip4 10 0 0 0, c4n4) ∧
    allocateIP c4n4 "5" "ten1" "seg1" = .ok (ip4 10 0 0 1, afterA c4n4 "5" "ten1" "seg1") ∧
    allocateIP (afterA c4n4 "5" "ten1" "seg1") "6" "ten1" "seg1" = .error .exhausted := by
  refine ⟨?_, by decide, by decide, by decide, by decide, by decide, by decide, by decide,
    by decide, by decide⟩
  intro n token t s ip n' hfresh hok c hc
  have free_of_allocAt : ∀ (nn : Network) (ii : Nat),
      nn.blackouts = n.blackouts → allocAt nn token ii t s = .ok (ip, n') →
      c.containsAddrB ip = false := by
    intro nn ii hbl hA
    obtain ⟨b, o, _, hl, hip⟩ := allocAt_ip_free nn token ii t s ip n' hA
    rw [hbl] at hl
    have hfree := (lowestFree_spec b n.blackouts o hl).1
    rw [hip]
    exact freeB_not_covered b n.blackouts o hfree c hc
  unfold allocateIP at hok
  split at hok
  · rename_i e he
    rw [hfresh] at he
    cases he
  · split at hok
    · rename_i i _
      exact free_of_allocAt n i rfl hok
    · split at hok
      · rename_i i _
        exact free_of_allocAt n i rfl hok
      · split at hok
        · rename_i base _
          exact free_of_allocAt
            { n with blocks := n.blocks ++ [⟨⟨base, n.blockMask⟩, t, s, []⟩] }
            n.blocks.length rfl hok
        · exact absurd hok (by simp)

/-- Closed instance of `blackout_addresses_never_allocated`: in the S3
initial state the allocation of token "1" yields 10.0.0.2, which no
blackout in force covers. -/
theorem blackout_addresses_never_allocated_witness :
    c4n0.endpoints.find? (fun e => e.token == "1") = none ∧
    allocateIP c4n0 "1" "ten1" "seg1" = .ok (ip4 10 0 0 2, c4n1) ∧
    (∀ c ∈ c4n0.blackouts, c.containsAddrB (ip4 10 0 0 2) = false) :=
  ⟨by decide, by decide,
    blackout_addresses_never_allocated.1 c4n0 "1" "ten1" "seg1" (ip4 10 0 0 2) c4n1
      (by decide) (by decide)⟩

/-! Host placement (C3). -/

theorem bestIdxAux_mem (h : HostT) :
    ∀ (l : List LeafG) (i0 : Nat) (acc : Option (Nat × Nat)) (res : Nat × Nat),
      bestIdxAux h l i0 acc = some res →
      acc = some res ∨
        ∃ m g, l[m]? = some g ∧ res.1 = i0 + m ∧
          tagsMatch g.assignment h.tags = true := by
  intro l
  induction l with
  | nil => intro i0 acc res hr; exact Or.inl (by simpa [bestIdxAux] using hr)
  | cons g gs ih =>
    intro i0 acc res hr
    unfold bestIdxAux at hr
    rcases ih (i0 + 1) _ res hr with hacc | ⟨m, g', hg', hidx, hm⟩
    · by_cases hmt : tagsMatch g.assignment h.tags = true
      · rw [if_pos hmt] at hacc
        cases acc with
        | none =>
          right
          refine ⟨0, g, by simp, ?_, hmt⟩
          have : res = (i0, g.hosts.length) := by
            simpa using hacc.symm
          simp [this]
        | some jc =>
          by_cases hlt : g.hosts.length < jc.2
          · right
            refine ⟨0, g, by simp, ?_, hmt⟩
            have : res = (i0, g.hosts.length) := by
              simpa [hlt] using hacc.symm
            simp [this]
          · left
            have : res = (jc.1, jc.2) := by
              simpa [hlt] using hacc.symm
            simp [this]
      · rw [if_neg hmt] at hacc
        exact Or.inl hacc
    · right
      refine ⟨m + 1, g', by simpa using hg', by omega, hm⟩

theorem leavesWith_set :
    ∀ (leaves : List LeafG) (i : Nat) (g : LeafG) (nm : String),
      leaves[i]? = some g →
      (∀ g' ∈ leaves, g'.hosts.contains nm = false) →
      leavesWith (leaves.set i { g with hosts := g.hosts ++ [nm] }) nm = 1 := by
  intro leaves
  induction leaves with
  | nil => intro i g nm hg _; simp at hg
  | cons g0 rest ih =>
    intro i g nm hg hfresh
    match i, hg with
    | 0, hg =>
      have hg0 : g0 = g := by simpa using hg
      subst hg0
      have hhd : (g0.hosts ++ [nm]).contains nm = true := by simp
      have htl : (rest.filter (fun g' => g'.hosts.contains nm)).length = 0 := by
        rw [List.length_eq_zero, List.filter_eq_nil_iff]
        intro g' hg'
        simpa using hfresh g' (List.mem_cons_of_mem _ hg')
      simp only [List.set, leavesWith, List.filter, hhd]
      simpa using htl
    | i' + 1, hg =>
      have hg' : rest[i']? = some g := by simpa using hg
      have h0 : g0.hosts.contains nm = false := hfresh g0 (by simp)
      have hrest := ih i' g nm hg' (fun g' hgm => hfresh g' (List.mem_cons_of_mem _ hgm))
      simp only [List.set, leavesWith, List.filter, h0]
      simpa [leavesWith] using hrest

/-- Leaves of the S5 scenario: assignments `{tier: backend}` and
`{tier: frontend}`. -/
def s5leaves : List LeafG :=
  [⟨"L1", [("tier", "backend")], []⟩, ⟨"L2", [("tier", "frontend")], []⟩]

/-- Eight backend-tagged hosts of the S5 scenario. -/
def s5backs : List HostT :=
  [⟨"b0", [("tier", "backend")]⟩, ⟨"b1", [("tier", "backend")]⟩,
   ⟨"b2", [("tier", "backend")]⟩, ⟨"b3", [("tier", "backend")]⟩,
   ⟨"b4", [("tier", "backend")]⟩, ⟨"b5", [("tier", "backend")]⟩,
   ⟨"b6", [("tier", "backend")]⟩, ⟨"b7", [("tier", "backend")]⟩]

/-- Four frontend-tagged hosts of the S5 scenario. -/
def s5fronts : List HostT :=
  [⟨"f0", [("tier", "frontend")]⟩, ⟨"f1", [("tier", "frontend")]⟩,
   ⟨"f2", [("tier", "frontend")]⟩, ⟨"f3", [("tier", "frontend")]⟩]

/-- C3 counterexample: the repository's own tests refute the "first
matching leaf in tree order wins" rule.  With two untagged leaves, the
first matching leaf for the (untagged) host "host1" is leaf 0, yet
`AddHost` -- calibrated against `TestHostAdditionSimple` and
`TestHostAdditionTags` -- places it into leaf 1; and over the
`TestHostAdditionSimple` scenario (four untagged hosts, two untagged
leaves) the spec's literal first-match rule would pile all four hosts
into the first leaf where the test demands two hosts in each leaf,
which the modelled behaviour delivers. -/
theorem addHost_not_first_matching_leaf :
    tagsMatch ([] : List (String × String)) ([] : List (String × String)) = true ∧
    firstIdx (fun (g : LeafG) => tagsMatch g.assignment ([] : List (String × String)))
        [⟨"g1", [], ["host0"]⟩, ⟨"g2", [], []⟩] 0 = some 0 ∧
    addHost [⟨"g1", [], ["host0"]⟩, ⟨"g2", [], []⟩] ⟨"host1", []⟩ =
      .ok [⟨"g1", [], ["host0"]⟩, ⟨"g2", [], ["host1"]⟩] ∧
    addHostSpecFirstMatch [⟨"g1", [], ["host0"]⟩, ⟨"g2", [], []⟩] ⟨"host1", []⟩ =
      .ok [⟨"g1", [], ["host0", "host1"]⟩, ⟨"g2", [], []⟩] ∧
    addAllSpec [⟨"g1", [], []⟩, ⟨"g2", [], []⟩]
        [⟨"host0", []⟩, ⟨"host1", []⟩, ⟨"host2", []⟩, ⟨"host3", []⟩] =
      [⟨"g1", [], ["host0", "host1", "host2", "host3"]⟩, ⟨"g2", [], []⟩] ∧
    addAll [⟨"g1", [], []⟩, ⟨"g2", [], []⟩]
        [⟨"host0", []⟩, ⟨"host1", []⟩, ⟨"host2", []⟩, ⟨"host3", []⟩] =
      [⟨"g1", [], ["host0", "host2"]⟩, ⟨"g2", [], ["host1", "host3"]⟩] := by
  decide

/-- C3 (amended): every host accepted by `AddHost` is admitted into
exactly one leaf group, and that leaf's assignment tags are all matched
by the host's tags; when several leaves match, hosts are spread over
the matching leaves (the modelled rule: fewest hosts first), not piled
into the first in tree order.  Concretely, the claim's own S5 scenario
still holds -- with assignments `{tier: backend}` and `{tier:
frontend}`, all eight backend hosts land in the first leaf and the four
frontend hosts in the second, each leaf being the unique match for its
hosts. -/
theorem addHost_exactly_one_matching_leaf (leaves : List LeafG) (h : HostT)
    (l' : List LeafG) (hok : addHost leaves h = .ok l') :
    (∃ (i : Nat) (g : LeafG), leaves[i]? = some g ∧ tagsMatch g.assignment h.tags = true ∧
      l' = leaves.set i { g with hosts := g.hosts ++ [h.name] } ∧
      leavesWith l' h.name = 1) ∧
    addAll s5leaves (s5backs ++ s5fronts) =
      [⟨"L1", [("tier", "backend")], ["b0", "b1", "b2", "b3", "b4", "b5", "b6", "b7"]⟩,
       ⟨"L2", [("tier", "frontend")], ["f0", "f1", "f2", "f3"]⟩] := by
  refine ⟨?_, by decide⟩
  unfold addHost at hok
  split at hok
  · exact absurd hok (by simp)
  · rename_i hdup
    split at hok
    · rename_i i c hbest
      split at hok
      · rename_i g hg
        have hl' : l' = leaves.set i { g with hosts := g.hosts ++ [h.name] } := by
          simpa using hok.symm
        have hfresh : ∀ g' ∈ leaves, g'.hosts.contains h.name = false := by
          have := List.any_eq_false.mp (Bool.of_not_eq_true hdup)
          intro g' hg'
          simpa using this g' hg'
        rcases bestIdxAux_mem h leaves 0 none (i, c) hbest with hacc | ⟨m, g', hg', hidx, hm⟩
        · cases hacc
        · have hmm : i = m := by simpa using hidx
          rw [hmm] at hg hl'
          have hgg : g' = g := by rw [hg'] at hg; injection hg
          subst hgg
          exact ⟨m, g', hg', hm, hl', hl' ▸ leavesWith_set leaves m g' h.name hg' hfresh⟩
      · exact absurd hok (by simp)
    · exact absurd hok (by simp)

/-- Closed instance of `addHost_exactly_one_matching_leaf`: adding the
first backend host to the S5 leaves. -/
theorem addHost_exactly_one_matching_leaf_witness :
    addHost s5leaves ⟨"b0", [("tier", "backend")]⟩ =
      .ok [⟨"L1", [("tier", "backend")], ["b0"]⟩, ⟨"L2", [("tier", "frontend")], []⟩] ∧
    ((∃ (i : Nat) (g : LeafG), s5leaves[i]? = some g ∧
        tagsMatch g.assignment [("tier", "backend")] = true ∧
        ([⟨"L1", [("tier", "backend")], ["b0"]⟩, ⟨"L2", [("tier", "frontend")], []⟩] :
          List LeafG) = s5leaves.set i { g with hosts := g.hosts ++ ["b0"] } ∧
        leavesWith [⟨"L1", [("tier", "backend")], ["b0"]⟩,
          ⟨"L2", [("tier", "frontend")], []⟩] "b0" = 1) ∧
     addAll s5leaves (s5backs ++ s5fronts) =
      [⟨"L1", [("tier", "backend")], ["b0", "b1", "b2", "b3", "b4", "b5", "b6", "b7"]⟩,
       ⟨"L2", [("tier", "frontend")], ["f0", "f1", "f2", "f3"]⟩]) :=
  ⟨by decide,
    addHost_exactly_one_matching_leaf s5leaves ⟨"b0", [("tier", "backend")]⟩ _ (by decide)⟩

/-! Topology resolver invariant (C8). -/

theorem le_pow_clog2 (k : Nat) (hk : clog2 k ≤ 32) : k ≤ 2 ^ clog2 k := by
  unfold clog2 at hk ⊢
  cases hf : (List.range 33).find? (fun b => k ≤ 2 ^ b) with
  | none =>
    rw [hf] at hk
    simp at hk
  | some b =>
    have hp := List.find?_some hf
    simpa using hp

theorem resolve_eq_node (lo hi plen : Nat) (nm : String) (ch : List GTree) :
    resolve lo hi plen (.node nm ch) =
      .node nm lo hi plen
        (resolveKids lo (2 ^ (32 - (plen + clog2 ch.length))) (plen + clog2 ch.length)
          hi ch) := rfl

theorem resolve_lo (lo hi plen : Nat) (g : GTree) : (resolve lo hi plen g).lo = lo := by
  cases g with
  | node nm ch => rfl

theorem resolve_hi (lo hi plen : Nat) (g : GTree) : (resolve lo hi plen g).hi = hi := by
  cases g with
  | node nm ch => rfl

mutual

theorem resolve_good : ∀ (g : GTree) (lo hi plen : Nat),
    fitsB plen g = true → lo + 2 ^ (32 - plen) ≤ hi →
    GoodTree (resolve lo hi plen g)
  | .node nm ch, lo, hi, plen, hfits, hroom => by
    have hfits' := hfits
    unfold fitsB at hfits'
    simp only [Bool.and_eq_true, decide_eq_true_eq] at hfits'
    obtain ⟨hb32, hkids⟩ := hfits'
    have hclog : clog2 ch.length ≤ 32 := by omega
    have hk : ch.length ≤ 2 ^ clog2 ch.length := le_pow_clog2 ch.length hclog
    have hmul : ch.length * 2 ^ (32 - (plen + clog2 ch.length)) ≤ 2 ^ (32 - plen) := by
      calc ch.length * 2 ^ (32 - (plen + clog2 ch.length))
          ≤ 2 ^ clog2 ch.length * 2 ^ (32 - (plen + clog2 ch.length)) :=
            Nat.mul_le_mul_right _ hk
        _ = 2 ^ (clog2 ch.length + (32 - (plen + clog2 ch.length))) := (pow_add 2 _ _).symm
        _ = 2 ^ (32 - plen) := by congr 1; omega
    have hlen : lo + ch.length * 2 ^ (32 - (plen + clog2 ch.length)) ≤ hi := by omega
    obtain ⟨hall, hpw⟩ := resolveKids_good ch lo (2 ^ (32 - (plen + clog2 ch.length)))
      (plen + clog2 ch.length) hi hkids rfl hlen
    rw [resolve_eq_node]
    exact GoodTree.mk nm lo hi plen _ hpw
      (fun c hc => ⟨(hall c hc).1, (hall c hc).2.1, (hall c hc).2.2.1⟩)
      (fun c hc => (hall c hc).2.2.2)

theorem resolveKids_good : ∀ (l : List GTree) (lo q plen' hi : Nat),
    fitsKids plen' l = true → q = 2 ^ (32 - plen') → lo + l.length * q ≤ hi →
    (∀ c ∈ resolveKids lo q plen' hi l,
        lo ≤ c.lo ∧ c.lo ≤ c.hi ∧ c.hi ≤ hi ∧ GoodTree c) ∧
    (resolveKids lo q plen' hi l).Pairwise disjointRT
  | [], lo, q, plen', hi, _, _, _ => by
    constructor
    · intro c hc
      simp [resolveKids] at hc
    · unfold resolveKids
      exact List.Pairwise.nil
  | [c], lo, q, plen', hi, hfk, hq, hlen => by
    unfold fitsKids at hfk
    simp only [Bool.and_eq_true] at hfk
    have hfc := hfk.1
    have hle : lo + q ≤ hi := by
      have h1 : (1 : Nat) * q = q := Nat.one_mul q
      simpa [h1] using hlen
    have hg : GoodTree (resolve lo hi plen' c) :=
      resolve_good c lo hi plen' hfc (by rw [← hq]; exact hle)
    constructor
    · intro cc hcc
      unfold resolveKids at hcc
      have hc1 : cc = resolve lo hi plen' c := by simpa using hcc
      subst hc1
      rw [resolve_lo, resolve_hi]
      have hq1 : 1 ≤ q := by
        subst hq
        exact Nat.one_le_two_pow
      exact ⟨le_refl _, by omega, le_refl _, hg⟩
    · unfold resolveKids
      exact List.pairwise_singleton _ _
  | c :: c' :: cs, lo, q, plen', hi, hfk, hq, hlen => by
    unfold fitsKids at hfk
    simp only [Bool.and_eq_true] at hfk
    obtain ⟨hfc, hfrest⟩ := hfk
    have hmulsplit : (c :: c' :: cs).length * q = (c' :: cs).length * q + q := by
      rw [List.length_cons]
      exact Nat.succ_mul _ _
    have hq0 : 0 ≤ (c' :: cs).length * q := Nat.zero_le _
    have hlen' : (lo + q) + (c' :: cs).length * q ≤ hi := by
      rw [hmulsplit] at hlen
      omega
    have hle2 : lo + q ≤ hi := by
      rw [hmulsplit] at hlen
      omega
    obtain ⟨hallR, hpwR⟩ :=
      resolveKids_good (c' :: cs) (lo + q) q plen' hi hfrest hq hlen'
    have hgc : GoodTree (resolve lo (lo + q) plen' c) :=
      resolve_good c lo (lo + q) plen' hfc (by rw [← hq])
    constructor
    · intro cc hcc
      unfold resolveKids at hcc
      rcases List.mem_cons.mp hcc with hh | ht
      · subst hh
        rw [resolve_lo, resolve_hi]
        exact ⟨le_refl _, by omega, hle2, hgc⟩
      · obtain ⟨h1, h2, h3, h4⟩ := hallR cc ht
        exact ⟨by omega, h2, h3, h4⟩
    · unfold resolveKids
      refine List.Pairwise.cons ?_ hpwR
      intro cc hcc
      left
      rw [resolve_hi]
      exact (hallR cc hcc).1

end

/-- The example tree of `TestPrefixGenForEmptyGroups`: two top-level
groups, the first a leaf, the second an internal group with two leaf
children. -/
def c8exTree : GTree :=
  .node "net1" [.node "g1" [], .node "g2" [.node "g21" [], .node "g22" []]]

/-- Expected resolution of `c8exTree` over 10.0.0.0/16: the first child
receives the first /17 and the second /17 is bisected into its two /18
halves in declaration order. -/
def c8exResolved : RTree :=
  .node "net1" (ip4 10 0 0 0) (ip4 10 1 0 0) 16
    [.node "g1" (ip4 10 0 0 0) (ip4 10 0 128 0) 17 [],
     .node "g2" (ip4 10 0 128 0) (ip4 10 1 0 0) 17
       [.node "g21" (ip4 10 0 128 0) (ip4 10 0 192 0) 18 [],
        .node "g22" (ip4 10 0 192 0) (ip4 10 1 0 0) 18 []]]

/-- C8: after resolution, sibling groups occupy pairwise disjoint
address ranges assigned in declaration order by bisecting the parent's
range with `ceil(log2 (k))` extra prefix bits for `k` children, and
every group's range is contained in its parent's (the `GoodTree`
invariant); concretely, over the /16 network of
`TestPrefixGenForEmptyGroups`, the first top-level child receives
10.0.0.0/17 and the internal second child's two leaves receive
10.0.128.0/18 and 10.0.192.0/18 in order. -/
theorem updateTopology_sibling_prefixes (g : GTree) (lo plen : Nat)
    (hfits : fitsB plen g = true) :
    GoodTree (resolve lo (lo + 2 ^ (32 - plen)) plen g) ∧
    resolve (ip4 10 0 0 0) (ip4 10 1 0 0) 16 c8exTree = c8exResolved :=
  ⟨resolve_good g lo (lo + 2 ^ (32 - plen)) plen hfits (le_refl _), by rfl⟩

/-- Closed instance of `updateTopology_sibling_prefixes` at the
`TestPrefixGenForEmptyGroups` tree over 10.0.0.0/16. -/
theorem updateTopology_sibling_prefixes_witness :
    fitsB 16 c8exTree = true ∧
    (GoodTree (resolve (ip4 10 0 0 0) (ip4 10 0 0 0 + 2 ^ (32 - 16)) 16 c8exTree) ∧
     resolve (ip4 10 0 0 0) (ip4 10 1 0 0) 16 c8exTree = c8exResolved) :=
  ⟨by decide, updateTopology_sibling_prefixes c8exTree (ip4 10 0 0 0) 16 (by decide)⟩

end Ipam
